import Mathlib

/-!
Verification of the rain/flood-informed vehicle routing core
(`rainfall_routing.py`): the simulated clock (`Agora`), the road network
(`Grafo`), the rainfall radar (`Radar`), the traversal-progress `oracle`,
the proximity flood classifier `is_flooded` and the rolling-horizon
`Experiment` loop, shallowly embedded in Lean.  Python integers become
`Nat`/`Int`, float quantities become `ℚ` (exact arithmetic), external
data sources (spreadsheet rows, radar matrices, coordinate conversion,
networkx A-star) become explicit parameters, and Python exceptions
become `Option` failure.
-/

namespace Rainfall

/-! ## The simulated clock (`Agora`, lines 19-67) -/

/-- The `Agora` timestamp object: `{year, month, day, hour, minute, second}`,
all Python non-negative integers. -/
structure Agora where
  year : Nat
  month : Nat
  day : Nat
  hour : Nat
  minute : Nat
  second : Nat
deriving DecidableEq

/-- `Agora.step` (lines 48-67): add `integer` seconds, carrying overflow
through second → minute → hour → day; month and year are not touched.
Python `//` and `%` on non-negative ints coincide with `Nat` `/` and `%`. -/
def Agora.step (a : Agora) (integer : Nat) : Agora :=
  let total_seconds := a.second + integer
  let second := total_seconds % 60
  let total_minutes := (total_seconds - second) / 60 + a.minute
  let minute := total_minutes % 60
  let total_hours := (total_minutes - minute) / 60 + a.hour
  let hour := total_hours % 24
  { a with
    second := second
    minute := minute
    hour := hour
    day := a.day + (total_hours - hour) / 24 }

/-- The data-model invariant on timestamps (spec §3): second and minute in
`[0,60)`, hour in `[0,24)`. -/
def Agora.Normal (a : Agora) : Prop :=
  a.second < 60 ∧ a.minute < 60 ∧ a.hour < 24

instance (a : Agora) : Decidable a.Normal := by
  unfold Agora.Normal; infer_instance

/-- Seconds-since-midnight-of-day-zero encoding of the mutable part of a
timestamp (day/hour/minute/second). -/
def Agora.encode (a : Agora) : Nat :=
  a.day * 86400 + a.hour * 3600 + a.minute * 60 + a.second

/-- Rebuild a timestamp from a seconds encoding, keeping year and month. -/
def Agora.decode (a : Agora) (v : Nat) : Agora :=
  { a with
    day := v / 86400
    hour := v % 86400 / 3600
    minute := v % 3600 / 60
    second := v % 60 }

/-! ## Timestamp rendering (lines 40-46 and 80-82) -/

/-- Zero-pad the decimal rendering of a non-negative integer to width `w`,
Python's `f"{n:0wd}"`. -/
def padZeros (w : Nat) (n : Nat) : String :=
  let s := toString n
  String.mk (List.replicate (w - s.length) '0') ++ s

/-- `Agora.__repr__` (lines 40-46): the fixed-width key `YYYYMMDDHHMM`. -/
def Agora.render (a : Agora) : String :=
  padZeros 4 a.year ++ padZeros 2 a.month ++ padZeros 2 a.day ++
    padZeros 2 a.hour ++ padZeros 2 a.minute

/-- The date string `f"{year:04d}-{month:02d}-{day:02d}"` (line 81). -/
def Agora.dateStr (a : Agora) : String :=
  padZeros 4 a.year ++ "-" ++ padZeros 2 a.month ++ "-" ++ padZeros 2 a.day

/-- The time string `f"{hour:02d}:{minute:02d}:{second:02d}"` (line 82). -/
def Agora.timeStr (a : Agora) : String :=
  padZeros 2 a.hour ++ ":" ++ padZeros 2 a.minute ++ ":" ++ padZeros 2 a.second

/-! ## Flood report retrieval (`Agora.get_flooding_points`, lines 69-96) -/

/-- Python string comparison: lexicographic on Unicode code points, a
strict prefix being smaller. -/
def strLtb : List Char → List Char → Bool
  | _, [] => false
  | [], _ :: _ => true
  | c :: cs, d :: ds =>
    if c.toNat = d.toNat then strLtb cs ds else decide (c.toNat < d.toNat)

/-- Python `s < t` on strings. -/
def pyStrLt (s t : String) : Bool :=
  strLtb s.data t.data

/-- Python `s <= t` on strings. -/
def pyStrLe (s t : String) : Bool :=
  pyStrLt s t || s == t

/-- One row of the external flood-report spreadsheet: a date, a time-of-day
interval `[START_T, END_T]` rendered as strings, and a projected point. -/
structure FloodRow where
  date : String
  start_t : String
  end_t : String
  x : ℚ
  y : ℚ

/-- `Agora.get_flooding_points` (lines 69-96).  The downloaded spreadsheet
becomes the explicit row list `flood_df` (kept in pandas row order) and the
external `convert_coordinates` projection becomes the parameter `conv`.
Pandas compares the string columns with Python string order, which is
lexicographic code-point order, exactly Lean's `String` order. -/
def Agora.get_flooding_points (conv : ℚ → ℚ → ℚ × ℚ) (flood_df : List FloodRow)
    (a : Agora) : List (ℚ × ℚ) :=
  let date := a.dateStr
  let start_time := a.timeStr
  let my_floods := flood_df.filter fun r =>
    r.date == date && pyStrLt r.start_t start_time && pyStrLt start_time r.end_t
  my_floods.map fun r => conv r.x r.y

/-! ## The road network (`Grafo`, lines 99-224) -/

/-- A networkx multigraph edge is identified by the triple
`(from-node, to-node, parallel-key)`; iterating `graph.edges` on a
`MultiDiGraph` yields these triples. -/
abbrev EdgeT := Nat × Nat × Nat

/-- The `Grafo` object: the bounding box it was built from, and the current
`networkx.MultiDiGraph` — node list, per-node coordinates (`x` = longitude,
`y` = latitude), edge list in iteration order, and the per-edge attributes
the core reads (`travel_time`, optional `geometry` polyline as `(lon, lat)`
pairs) plus the core-managed mutable `weight` attribute (`none` = the
attribute has never been set). -/
structure Grafo where
  lat0 : ℚ
  latoo : ℚ
  lon0 : ℚ
  lonoo : ℚ
  nodes : List Nat
  x : Nat → ℚ
  y : Nat → ℚ
  edges : List EdgeT
  travel_time : EdgeT → ℚ
  geometry : EdgeT → Option (List (ℚ × ℚ))
  weight : EdgeT → Option ℚ

/-- `Grafo.find_edge_by_nodes` (lines 200-224): all edges from `node1` to
`node2`, then all edges from `node2` to `node1`, first hit or `None`
(with a printed diagnostic, which has no modelled effect). -/
def Grafo.find_edge_by_nodes (g : Grafo) (node1 node2 : Nat) : Option EdgeT :=
  let e1 := g.edges.filter fun e => e.1 == node1 && e.2.1 == node2
  let e2 := g.edges.filter fun e => e.1 == node2 && e.2.1 == node1
  match e1 ++ e2 with
  | [] => none
  | e :: _ => some e

/-- Python's `min` over a list; raising on the empty list is handled by the
callers, so the empty case is given an arbitrary value here. -/
def pyMin (l : List ℚ) : ℚ :=
  match l with
  | [] => 0
  | q :: qs => qs.foldl min q

/-- Python's `max` over a list (same convention as `pyMin`). -/
def pyMax (l : List ℚ) : ℚ :=
  match l with
  | [] => 0
  | q :: qs => qs.foldl max q

/-- Modelled from the spec: the external `ox.truncate.truncate_graph_bbox`
call (line 181), whose contract §4.3 describes as "destructively truncates
the network to that box" — keep exactly the nodes whose coordinates lie in
the closed box, and with them the edges both of whose endpoints remain. -/
def truncate_graph_bbox (g : Grafo) (north south east west : ℚ) : Grafo :=
  let keep : Nat → Bool := fun n =>
    decide (south ≤ g.y n) && decide (g.y n ≤ north) &&
      decide (west ≤ g.x n) && decide (g.x n ≤ east)
  { g with
    nodes := g.nodes.filter keep
    edges := g.edges.filter fun e => keep e.1 && keep e.2.1 }

/-- `Grafo.crop` (lines 148-183).  The external `nx.astar_path` search on
the `travel_time` attribute becomes the parameter `astar`; Python raises
(`NetworkXNoPath`) when no path exists, modelled by `astar` returning
`none`, and `min`/`max` raise on an empty path, so the result is an
`Option`.  The bounding box of the returned path is doubled on each side,
clamped to the graph's original outer box, and the graph is truncated to
it; the `lat0`/`latoo`/`lon0`/`lonoo` fields themselves are not changed. -/
def Grafo.crop (astar : Grafo → Nat → Nat → Option (List Nat)) (g : Grafo)
    (initial_point final_point : Nat) : Option Grafo :=
  match astar g initial_point final_point with
  | none => none
  | some gmaps_path =>
    if gmaps_path.isEmpty then none
    else
      let lats := gmaps_path.map g.y
      let lons := gmaps_path.map g.x
      let lat_min := pyMin lats
      let lat_max := pyMax lats
      let lon_min := pyMin lons
      let lon_max := pyMax lons
      let bbox_lat_min := max g.lat0 (lat_min - (lat_max - lat_min))
      let bbox_lat_max := min g.latoo (lat_max + (lat_max - lat_min))
      let bbox_lon_min := max g.lon0 (lon_min - (lon_max - lon_min))
      let bbox_lon_max := min g.lonoo (lon_max + (lon_max - lon_min))
      some (truncate_graph_bbox g bbox_lat_max bbox_lat_min bbox_lon_max bbox_lon_min)

/-! ## The rainfall radar (`Radar`, lines 227-344) -/

/-- Python's `int()` applied to a float/fraction: truncation toward zero. -/
def pytrunc (q : ℚ) : Int :=
  Int.tdiv q.num q.den

/-- Python list indexing `l[i]`: a negative index counts from the end; an
index out of range (after that adjustment) raises, modelled as `none`. -/
def pyIndex {α : Type} (l : List α) (i : Int) : Option α :=
  if 0 ≤ i then l.get? i.toNat
  else if 0 ≤ i + l.length then l.get? (i + l.length).toNat
  else none

/-- Python's `max` over a non-empty list of ints (the callers only apply it
to non-empty lists; the empty case gets an arbitrary value). -/
def pyListMax (l : List Int) : Int :=
  match l with
  | [] => 0
  | v :: vs => vs.foldl max v

/-- A Python list comprehension whose body may raise: evaluate `f` on each
element in order, failing as soon as one evaluation fails. -/
def pyTraverse {α β : Type} (f : α → Option β) : List α → Option (List β)
  | [] => some []
  | a :: l =>
    match f a with
    | none => none
    | some b => (pyTraverse f l).map fun bs => b :: bs

/-- The `Radar` object (lines 227-246): the grid origin and spacing, plus
`rain_by_time` (lines 248-308), the download-and-parse of the rainfall
matrix for a rendered timestamp.  That method is pure I/O against the
remote radar archive and the on-disk cache (the core treats it as a data
source), so it is modelled as an abstract function from the timestamp to
the optional parsed matrix: `none` when no file exists for the instant,
`some` rows of integers otherwise. -/
structure Radar where
  lat0 : ℚ
  lon0 : ℚ
  dlat : ℚ
  dlon : ℚ
  rain_by_time : Agora → Option (List (List Int))

/-- The sampled `(lon, lat)` points of an edge (lines 323-335 and 427-439,
identical in `rain_at_edge` and `is_flooded`): the vertices of the edge's
`geometry` polyline when the attribute exists, always followed by the
coordinates of the two endpoint nodes. -/
def edgeLonLats (g : Grafo) (edge : EdgeT) : List (ℚ × ℚ) :=
  (match g.geometry edge with
   | some cs => cs
   | none => []) ++
    [(g.x edge.1, g.y edge.1), (g.x edge.2.1, g.y edge.2.1)]

/-- The same sampled points as `(lat, lon)` pairs (lines 441-442). -/
def edgeLatLons (g : Grafo) (edge : EdgeT) : List (ℚ × ℚ) :=
  (edgeLonLats g edge).map fun p => (p.2, p.1)

/-- `Radar.rain_at_edge` (lines 310-344): sample the edge's points, map
each to a grid cell with `int()` truncation, read the matrix at every cell
and return the maximum.  A missing matrix (`None`) or an out-of-range index
raises in Python, so the result is an `Option`. -/
def Radar.rain_at_edge (radar : Radar) (g : Grafo) (edge : EdgeT) (agora : Agora) :
    Option Int :=
  let lonlats := edgeLonLats g edge
  let rowcols := lonlats.map fun p =>
    (pytrunc ((p.2 - radar.lat0) / radar.dlat), pytrunc ((p.1 - radar.lon0) / radar.dlon))
  match radar.rain_by_time agora with
  | none => none
  | some matrix =>
    (pyTraverse (fun rc => (pyIndex matrix rc.1).bind fun row => pyIndex row rc.2)
      rowcols).map fun rainfall => pyListMax rainfall

/-! ## The traversal oracle (`oracle`, lines 366-412) -/

/-- The `while` loop of the oracle (lines 398-410), as a recursion on the
remaining path positions.  State: position `n` in the path, the running
`next_node`, the accumulated `crossed_edges` (which in Python may receive
`None` from a failed `find_edge_by_nodes`), and the remaining budget
`tyme`.  Looking up `grafo.graph.edges[None]` raises, modelled as `none`. -/
def oracleLoop (g : Grafo) (path : List Nat) (n : Nat) (next_node : Nat)
    (crossed_edges : List (Option EdgeT)) (tyme : ℚ) :
    Option (Nat × List (Option EdgeT)) :=
  if h : 0 < tyme ∧ n + 1 < path.length then
    let next' := path.getD (n + 1) 0
    match g.find_edge_by_nodes (path.getD n 0) next' with
    | none => none
    | some e => oracleLoop g path (n + 1) next' (crossed_edges ++ [some e])
        (tyme - g.travel_time e)
  else
    some (next_node, crossed_edges)
termination_by path.length - n
decreasing_by omega

/-- `oracle` (lines 366-412): find the first occurrence of `initial_point`
in `path`; if it is absent, return the initial point and no crossed edges
(non-fatally, with a printed diagnostic); otherwise walk the path from that
index, spending each crossed edge's `travel_time` from the budget. -/
def oracle (g : Grafo) (path : List Nat) (initial_point : Nat) (tyme : ℚ) :
    Option (Nat × List (Option EdgeT)) :=
  let initial_indices := (List.range path.length).filter fun i =>
    path.getD i 0 == initial_point
  match initial_indices with
  | [] => some (initial_point, [])
  | n :: _ => oracleLoop g path n initial_point [] tyme

/-! ## The flood classifier (`is_flooded`, lines 415-453) -/

/-- `is_flooded` (lines 415-453): sample the edge's points, swap them to
`(lat, lon)`, and scan each against every flood point; the inner `break`
leaves `tf` true as soon as some flood point is within 200 meters of the
current sampled point, never resetting it.  The external geopy great-circle
distance becomes the parameter `dist` (meters). -/
def is_flooded (dist : ℚ × ℚ → ℚ × ℚ → ℚ) (g : Grafo) (edge : EdgeT)
    (flooded_points : List (ℚ × ℚ)) : Bool :=
  let latlons := edgeLatLons g edge
  latlons.foldl
    (fun tf p => tf || flooded_points.any fun q => decide (dist p q < 200)) false

/-! ## The simulation loop (`Experiment`, lines 457-526) -/

/-- The pluggable cost model: `weight(graph, e, flooding_points, rains)`. -/
abbrev WeightFn := Grafo → EdgeT → List (ℚ × ℚ) → List (EdgeT × Int) → ℚ

/-- `nx.set_edge_attributes(graph, weights, 'weight')` (line 509) with a
dictionary whose keys are exactly `graph.edges`: every current edge's
`weight` attribute is overwritten, nothing else changes. -/
def nx_set_edge_attributes (g : Grafo) (weights : EdgeT → ℚ) : Grafo :=
  { g with weight := fun e => if g.edges.contains e then some (weights e) else g.weight e }

/-- Python dict insert-or-overwrite `d[k] = v`: an existing key keeps its
insertion position, a new key is appended. -/
def dictSet (d : List (EdgeT × Int)) (k : EdgeT) (v : Int) : List (EdgeT × Int) :=
  if d.any fun p => p.1 == k then d.map fun p => if p.1 == k then (k, v) else p
  else d ++ [(k, v)]

/-- Python truthiness of the matrix returned by `rain_by_time` (line 505):
`None` and the empty list are falsy, any non-empty matrix is truthy. -/
def gridPresent : Option (List (List Int)) → Bool
  | none => false
  | some A => !A.isEmpty

/-- The per-iteration rainfall dictionary (lines 505-511): when the grid is
truthy, `rains = {e: rain_at_edge(graph, e, time) for e in graph.edges}`
(any sampling failure raises, hence `Option`); when it is absent,
`rains = {e: 0 for e in graph.edges}`. -/
def iterRains (radar : Radar) (g : Grafo) (time : Agora) :
    Option (List (EdgeT × Int)) :=
  if gridPresent (radar.rain_by_time time) then
    pyTraverse (fun e => (radar.rain_at_edge g e time).map fun v => (e, v)) g.edges
  else some (g.edges.map fun e => (e, 0))

/-- The `for e in subpath: edge_rains[e] = rains[e]` loop (lines 523-524):
each crossed edge's rainfall is looked up (`KeyError`, i.e. failure, if the
oracle ever handed back a key outside `rains`) and recorded, overwriting
any earlier value for that edge. -/
def recordSubpath (rains : List (EdgeT × Int)) :
    List (Option EdgeT) → List (EdgeT × Int) → Option (List (EdgeT × Int))
  | [], edge_rains => some edge_rains
  | eo :: rest, edge_rains =>
    match eo with
    | none => none
    | some e =>
      match rains.lookup e with
      | none => none
      | some v => recordSubpath rains rest (dictSet edge_rains e v)

/-- The tail of one loop iteration, from the A-star call on (lines
514-524): run the external A-star on the weighted graph `g1` (`none` is a
fatal `NetworkXNoPath`), step the clock by 600 s, run the oracle from the
head of the fresh path with a 600 s budget (an empty path would make
`shortest_path[0]` raise), and record the crossed edges' rainfall. -/
def expIterPlan (astarW : Grafo → Nat → Nat → Option (List Nat)) (g1 : Grafo)
    (destination start : Nat) (time1 : Agora) (rains : List (EdgeT × Int))
    (edge_rains : List (EdgeT × Int)) :
    Option (Nat × Agora × Grafo × List (EdgeT × Int)) :=
  match astarW g1 start destination with
  | none => none
  | some shortest_path =>
    match shortest_path with
    | [] => none
    | p0 :: _ =>
      match oracle g1 shortest_path p0 600 with
      | none => none
      | some (start1, subpath) =>
        (recordSubpath rains subpath edge_rains).map fun er =>
          (start1, time1, g1, er)

/-- One iteration of the main loop of `Experiment.experiment`
(lines 500-524): fetch the flood points, build the rainfall dictionary
(`iterRains`), overwrite the edge weights through the cost model only when
the grid is present, then hand the weighted graph to `expIterPlan`.
Returns the updated `(start, time, graph, edge_rains)` state, or `none`
when the iteration raises. -/
def expIter (conv : ℚ → ℚ → ℚ × ℚ) (df : List FloodRow) (w : WeightFn)
    (astarW : Grafo → Nat → Nat → Option (List Nat)) (radar : Radar)
    (destination start : Nat) (time : Agora) (g : Grafo)
    (edge_rains : List (EdgeT × Int)) :
    Option (Nat × Agora × Grafo × List (EdgeT × Int)) :=
  let flooding_points := Agora.get_flooding_points conv df time
  match iterRains radar g time with
  | none => none
  | some rains =>
    let g1 := if gridPresent (radar.rain_by_time time) then
        nx_set_edge_attributes g fun e => w g e flooding_points rains
      else g
    expIterPlan astarW g1 destination start (time.step 600) rains edge_rains

/-- The `while start != self.destination` loop (lines 500-524).  The source
loop is unbounded (spec §4.8 records non-termination as an open risk), so
the recursion carries explicit `fuel`: `none` means the run raised or was
still short of the destination after `fuel` iterations. -/
def expLoop (conv : ℚ → ℚ → ℚ × ℚ) (df : List FloodRow) (w : WeightFn)
    (astarW : Grafo → Nat → Nat → Option (List Nat)) (radar : Radar)
    (destination : Nat) :
    Nat → Nat → Agora → Grafo → List (EdgeT × Int) →
      Option (Nat × Agora × Grafo × List (EdgeT × Int))
  | fuel, start, time, g, edge_rains =>
    if start == destination then some (start, time, g, edge_rains)
    else
      match fuel with
      | 0 => none
      | Nat.succ f =>
        match expIter conv df w astarW radar destination start time g edge_rains with
        | none => none
        | some (s1, t1, g1, er1) =>
          expLoop conv df w astarW radar destination f s1 t1 g1 er1

/-- The `Experiment` object (lines 457-477), after its `__init__` has
resolved the origin and destination coordinates to node ids through the
external nearest-node query. -/
structure PyExperiment where
  origin : Nat
  destination : Nat
  agora : Agora
  grafo : Grafo
  radar : Radar

/-- `Experiment.experiment` (lines 479-526).  `start` and `time` are
`deepcopy`s of `self.origin` and `self.agora`, so the loop advances fresh
values while the originals are untouched; `self.grafo.crop` mutates the
shared network in place and returns the very graph the loop then plans on,
weights, A-star and oracle included, so the returned `PyExperiment` carries
the loop's final graph in its `grafo` field and every other field
unchanged.  `astarTT` is the external A-star on `travel_time` used by
`crop`; `astarW` the one on `weight` used by the loop. -/
def PyExperiment.experiment (conv : ℚ → ℚ → ℚ × ℚ) (df : List FloodRow)
    (astarTT astarW : Grafo → Nat → Nat → Option (List Nat)) (w : WeightFn)
    (e : PyExperiment) (fuel : Nat) :
    Option (PyExperiment × List (EdgeT × Int)) :=
  match Grafo.crop astarTT e.grafo e.origin e.destination with
  | none => none
  | some graph =>
    match expLoop conv df w astarW e.radar e.destination fuel e.origin e.agora
        graph [] with
    | none => none
    | some (_, _, gF, er) => some ({ e with grafo := gF }, er)

/-! ## Specification-side definitions

These definitions follow the words of the specification (not the source);
they exist only to be compared with the source-derived definitions above. -/

/-- The flood-row filter as the specification states it: the half-open
time-of-day interval `[START_T, END_T)` contains the current time (so a row
with `START_T` equal to the current time is included). -/
def floodPointsSpec (conv : ℚ → ℚ → ℚ × ℚ) (flood_df : List FloodRow)
    (a : Agora) : List (ℚ × ℚ) :=
  (flood_df.filter fun r =>
    r.date == a.dateStr && pyStrLe r.start_t a.timeStr && pyStrLt a.timeStr r.end_t).map
    fun r => conv r.x r.y

/-- Mathematical grid lookup: defined only on genuine cells
(non-negative row and column inside the matrix). -/
def gridAt (matrix : List (List Int)) (r c : Int) : Option Int :=
  if 0 ≤ r && 0 ≤ c then (matrix.get? r.toNat).bind fun row => row.get? c.toNat
  else none

/-- The sample set as the specification's §4.2 states it: every vertex of
the edge's geometry or, only if there is no geometry, its two endpoints. -/
def claimSamples (g : Grafo) (edge : EdgeT) : List (ℚ × ℚ) :=
  match g.geometry edge with
  | some cs => cs
  | none => [(g.x edge.1, g.y edge.1), (g.x edge.2.1, g.y edge.2.1)]

/-- Per-edge rainfall as the claim states it: the maximum of the grid
values at the cells `(⌊(lat - lat0)/dlat⌋, ⌊(lon - lon0)/dlon⌋)` of the
claimed sample set. -/
def rainAtEdgeClaim (radar : Radar) (g : Grafo) (edge : EdgeT) (agora : Agora) :
    Option Int :=
  match radar.rain_by_time agora with
  | none => none
  | some matrix =>
    (pyTraverse (fun p =>
      gridAt matrix ⌊(p.2 - radar.lat0) / radar.dlat⌋ ⌊(p.1 - radar.lon0) / radar.dlon⌋)
      (claimSamples g edge)).map fun rainfall => pyListMax rainfall

/-- Per-edge rainfall with floor cells but the source's sample set
(geometry vertices plus both endpoints): the form the code provably
computes when every sampled offset is non-negative. -/
def rainAtEdgeFloor (radar : Radar) (g : Grafo) (edge : EdgeT) (agora : Agora) :
    Option Int :=
  match radar.rain_by_time agora with
  | none => none
  | some matrix =>
    (pyTraverse (fun p =>
      gridAt matrix ⌊(p.2 - radar.lat0) / radar.dlat⌋ ⌊(p.1 - radar.lon0) / radar.dlon⌋)
      (edgeLonLats g edge)).map fun rainfall => pyListMax rainfall

/-! ## Concrete fixtures -/

/-- A three-node path graph A(0) → B(1) → C(2) with travel times 300 s and
400 s (the end-to-end oracle scenario of spec §8). -/
def gC1 : Grafo where
  lat0 := 0
  latoo := 0
  lon0 := 0
  lonoo := 0
  nodes := [0, 1, 2]
  x := fun _ => 0
  y := fun _ => 0
  edges := [(0, 1, 0), (1, 2, 0)]
  travel_time := fun e => if e = (0, 1, 0) then 300 else if e = (1, 2, 0) then 400 else 0
  geometry := fun _ => none
  weight := fun _ => none

/-- A two-node graph with no edges at all: `find_edge_by_nodes` misses on
the consecutive pair of the path `[0, 1]`. -/
def gC5 : Grafo where
  lat0 := 0
  latoo := 0
  lon0 := 0
  lonoo := 0
  nodes := [0, 1]
  x := fun _ => 0
  y := fun _ => 0
  edges := []
  travel_time := fun _ => 0
  geometry := fun _ => none
  weight := fun _ => none

/-- A stand-in coordinate converter (the projection is external). -/
def convId : ℚ → ℚ → ℚ × ℚ := fun a b => (a, b)

/-- A flood spreadsheet with a single row whose `START_T` equals the
query time of `agoraC4` exactly. -/
def dfC4 : List FloodRow :=
  [{ date := "2019-03-10", start_t := "10:00:00", end_t := "11:00:00", x := 5, y := 7 }]

/-- A flood spreadsheet with one row strictly bracketing the query time
and one row starting after it. -/
def dfC4b : List FloodRow :=
  [{ date := "2019-03-10", start_t := "09:00:00", end_t := "11:00:00", x := 5, y := 7 },
   { date := "2019-03-10", start_t := "10:30:00", end_t := "11:00:00", x := 1, y := 2 }]

/-- The query instant 2019-03-10 10:00:00. -/
def agoraC4 : Agora := { year := 2019, month := 3, day := 10, hour := 10, minute := 0, second := 0 }

/-- A stand-in great-circle distance returning a constant 100 m. -/
def distW : ℚ × ℚ → ℚ × ℚ → ℚ := fun _ _ => 100

/-- A unit-spacing radar whose grid is the single row `[5, 99]`. -/
def rC7 : Radar :=
  { lat0 := 0, lon0 := 0, dlat := 1, dlon := 1, rain_by_time := fun _ => some [[5, 99]] }

/-- A radar with no grid for any timestamp. -/
def radNone : Radar :=
  { lat0 := 0, lon0 := 0, dlat := 1, dlon := 1, rain_by_time := fun _ => none }

/-- A one-edge graph whose geometry vertex lies in cell `(0,0)` (value 5)
while both endpoints lie in cell `(0,1)` (value 99). -/
def gC7a : Grafo where
  lat0 := 0
  latoo := 2
  lon0 := 0
  lonoo := 2
  nodes := [0, 1]
  x := fun _ => 3 / 2
  y := fun _ => 1 / 2
  edges := [(0, 1, 0)]
  travel_time := fun _ => 1
  geometry := fun e => if e = (0, 1, 0) then some [(1 / 2, 1 / 2)] else none
  weight := fun _ => none

/-- A one-edge graph, no geometry, whose endpoints lie half a cell below
the grid origin: truncation toward zero reads row 0, flooring would ask
for row −1. -/
def gC7b : Grafo where
  lat0 := 0
  latoo := 2
  lon0 := 0
  lonoo := 2
  nodes := [0, 1]
  x := fun _ => 1 / 2
  y := fun _ => -(1 / 2)
  edges := [(0, 1, 0)]
  travel_time := fun _ => 1
  geometry := fun _ => none
  weight := fun _ => none

/-- Equality of every `Grafo` field except the core-managed `weight`
attribute: the loop of `Experiment.experiment` may overwrite weights but
never touches the cropped graph's skeleton. -/
def sameSkeleton (g1 g2 : Grafo) : Prop :=
  g1.lat0 = g2.lat0 ∧ g1.latoo = g2.latoo ∧ g1.lon0 = g2.lon0 ∧ g1.lonoo = g2.lonoo ∧
  g1.nodes = g2.nodes ∧ g1.x = g2.x ∧ g1.y = g2.y ∧ g1.edges = g2.edges ∧
  g1.travel_time = g2.travel_time ∧ g1.geometry = g2.geometry

/-- A constant cost model. -/
def wOne : WeightFn := fun _ _ _ _ => 1

/-- An external A-star stub returning the path `[0, 1, 2]`. -/
def astarW012 : Grafo → Nat → Nat → Option (List Nat) := fun _ _ _ => some [0, 1, 2]

/-- A two-node graph whose nodes sit exactly on its (degenerate) bounding
box, so cropping is the identity on it. -/
def gC9 : Grafo where
  lat0 := 0
  latoo := 0
  lon0 := 0
  lonoo := 0
  nodes := [0, 1]
  x := fun _ => 0
  y := fun _ => 0
  edges := [(0, 1, 0)]
  travel_time := fun _ => 1
  geometry := fun _ => none
  weight := fun _ => none

/-- An external A-star stub returning the path `[0, 1]`. -/
def astar9 : Grafo → Nat → Nat → Option (List Nat) := fun _ _ _ => some [0, 1]

/-- An experiment whose origin already equals its destination. -/
def expC10 : PyExperiment :=
  { origin := 0, destination := 0, agora := agoraC4, grafo := gC9, radar := radNone }

/-! ## Oracle lemmas -/

/-- The edge the oracle resolves between consecutive path positions `i` and
`i + 1`. -/
def pairEdge (g : Grafo) (path : List Nat) (i : Nat) : Option EdgeT :=
  g.find_edge_by_nodes (path.getD i 0) (path.getD (i + 1) 0)

/-- The consecutive-pair edges of `path` starting at position `j`, `k` of
them, in path order. -/
def pathEdges (g : Grafo) (path : List Nat) (j k : Nat) : List (Option EdgeT) :=
  (List.range' j k).map (pairEdge g path)

/-- Total travel time of the `k` consecutive-pair edges from position `j`
(a missing edge contributes `0`; the theorems below always assume the
edges exist). -/
def remainingTime (g : Grafo) (path : List Nat) (j k : Nat) : ℚ :=
  ((List.range' j k).map fun i => ((pairEdge g path i).map g.travel_time).getD 0).sum

theorem pathEdges_zero (g : Grafo) (path : List Nat) (j : Nat) :
    pathEdges g path j 0 = [] := rfl

theorem pathEdges_succ (g : Grafo) (path : List Nat) (j k : Nat) :
    pathEdges g path j (k + 1) = pairEdge g path j :: pathEdges g path (j + 1) k := by
  unfold pathEdges
  rw [List.range'_succ, List.map_cons]

theorem pathEdges_length (g : Grafo) (path : List Nat) (j k : Nat) :
    (pathEdges g path j k).length = k := by
  unfold pathEdges
  rw [List.length_map, List.length_range']

theorem remainingTime_succ (g : Grafo) (path : List Nat) (j k : Nat) :
    remainingTime g path j (k + 1) =
      ((pairEdge g path j).map g.travel_time).getD 0 + remainingTime g path (j + 1) k := by
  unfold remainingTime
  rw [List.range'_succ, List.map_cons, List.sum_cons]

theorem remainingTime_nonneg (g : Grafo) (path : List Nat) (j k : Nat)
    (hk : j + k < path.length)
    (hedges : ∀ i, j ≤ i → i + 1 < path.length →
      ∃ e, pairEdge g path i = some e ∧ 0 < g.travel_time e) :
    0 ≤ remainingTime g path j k := by
  apply List.sum_nonneg
  intro q hq
  obtain ⟨i, hi, rfl⟩ := List.mem_map.mp hq
  have hi' := List.mem_range'.mp hi
  obtain ⟨e, he, hpos⟩ := hedges i (by omega) (by omega)
  rw [he]
  exact le_of_lt hpos

theorem oracleLoop_unfold (g : Grafo) (path : List Nat) (n next : Nat)
    (crossed : List (Option EdgeT)) (tyme : ℚ) :
    oracleLoop g path n next crossed tyme =
      if 0 < tyme ∧ n + 1 < path.length then
        match g.find_edge_by_nodes (path.getD n 0) (path.getD (n + 1) 0) with
        | none => none
        | some e => oracleLoop g path (n + 1) (path.getD (n + 1) 0)
            (crossed ++ [some e]) (tyme - g.travel_time e)
      else some (next, crossed) := by
  rw [oracleLoop]
  split <;> simp

theorem oracleLoop_stop (g : Grafo) (path : List Nat) (n next : Nat)
    (crossed : List (Option EdgeT)) (tyme : ℚ)
    (h : ¬(0 < tyme ∧ n + 1 < path.length)) :
    oracleLoop g path n next crossed tyme = some (next, crossed) := by
  rw [oracleLoop_unfold, if_neg h]

theorem oracleLoop_step (g : Grafo) (path : List Nat) (n next : Nat)
    (crossed : List (Option EdgeT)) (tyme : ℚ) (e : EdgeT)
    (h1 : 0 < tyme) (h2 : n + 1 < path.length)
    (he : pairEdge g path n = some e) :
    oracleLoop g path n next crossed tyme =
      oracleLoop g path (n + 1) (path.getD (n + 1) 0) (crossed ++ [some e])
        (tyme - g.travel_time e) := by
  rw [oracleLoop_unfold, if_pos ⟨h1, h2⟩]
  unfold pairEdge at he
  rw [he]

theorem oracleLoop_miss (g : Grafo) (path : List Nat) (n next : Nat)
    (crossed : List (Option EdgeT)) (tyme : ℚ)
    (h1 : 0 < tyme) (h2 : n + 1 < path.length)
    (he : pairEdge g path n = none) :
    oracleLoop g path n next crossed tyme = none := by
  rw [oracleLoop_unfold, if_pos ⟨h1, h2⟩]
  unfold pairEdge at he
  rw [he]

/-- Full traversal: when every consecutive edge from position `j` onward
exists with positive travel time and the budget covers their total travel
time, the loop walks to the end of the path and crosses exactly those
edges, in order. -/
theorem oracleLoop_full (g : Grafo) (path : List Nat) :
    ∀ k j next crossed tyme, j + k + 1 = path.length →
      (∀ i, j ≤ i → i + 1 < path.length →
        ∃ e, pairEdge g path i = some e ∧ 0 < g.travel_time e) →
      remainingTime g path j k ≤ tyme →
      next = path.getD j 0 →
      oracleLoop g path j next crossed tyme =
        some (path.getD (path.length - 1) 0, crossed ++ pathEdges g path j k) := by
  intro k
  induction k with
  | zero =>
    intro j next crossed tyme hlen hedges htime hnext
    rw [oracleLoop_stop g path j next crossed tyme (by omega)]
    rw [pathEdges_zero, List.append_nil, hnext]
    have hj : j = path.length - 1 := by omega
    rw [hj]
  | succ k ih =>
    intro j next crossed tyme hlen hedges htime hnext
    obtain ⟨e, he, hpos⟩ := hedges j (le_refl j) (by omega)
    have hrest : 0 ≤ remainingTime g path (j + 1) k :=
      remainingTime_nonneg g path (j + 1) k (by omega) fun i hi hi' =>
        hedges i (by omega) hi'
    have hsum : remainingTime g path j (k + 1) =
        g.travel_time e + remainingTime g path (j + 1) k := by
      rw [remainingTime_succ, he]
      rfl
    have h1 : 0 < tyme := by
      rw [hsum] at htime
      linarith
    rw [oracleLoop_step g path j next crossed tyme e h1 (by omega) he]
    rw [ih (j + 1) (path.getD (j + 1) 0) (crossed ++ [some e])
      (tyme - g.travel_time e) (by omega)
      (fun i hi hi' => hedges i (by omega) hi') (by rw [hsum] at htime; linarith) rfl]
    rw [pathEdges_succ, he, List.append_assoc]
    rfl

/-- Partial traversal: with a positive budget, existing consecutive edges
and at least one position left, the loop crosses at least one edge and
stops at some later position of the path, having crossed exactly the
consecutive-pair edges between the two positions. -/
theorem oracleLoop_progress (g : Grafo) (path : List Nat) :
    ∀ k j next crossed tyme, j + k + 1 = path.length → 1 ≤ k →
      (∀ i, j ≤ i → i + 1 < path.length → ∃ e, pairEdge g path i = some e) →
      0 < tyme →
      ∃ m, 1 ≤ m ∧ j + m + 1 ≤ path.length ∧
        oracleLoop g path j next crossed tyme =
          some (path.getD (j + m) 0, crossed ++ pathEdges g path j m) := by
  intro k
  induction k with
  | zero => intro j next crossed tyme _ hk; omega
  | succ k ih =>
    intro j next crossed tyme hlen _ hedges htime
    obtain ⟨e, he⟩ := hedges j (le_refl j) (by omega)
    rw [oracleLoop_step g path j next crossed tyme e htime (by omega) he]
    by_cases hc : 0 < tyme - g.travel_time e ∧ j + 1 + 1 < path.length
    · obtain ⟨m, hm1, hm2, heq⟩ := ih (j + 1) (path.getD (j + 1) 0)
        (crossed ++ [some e]) (tyme - g.travel_time e) (by omega) (by omega)
        (fun i hi hi' => hedges i (by omega) hi') hc.1
      refine ⟨m + 1, by omega, by omega, ?_⟩
      rw [heq, pathEdges_succ, he]
      have hidx : j + 1 + m = j + (m + 1) := by omega
      rw [List.append_assoc, hidx]
      rw [List.singleton_append]
    · rw [oracleLoop_stop g path (j + 1) (path.getD (j + 1) 0)
        (crossed ++ [some e]) (tyme - g.travel_time e) hc]
      refine ⟨1, le_refl 1, by omega, ?_⟩
      rw [pathEdges_succ, pathEdges_zero, he]

/-- The first-occurrence scan of the oracle (line 381): when
`initial_point ∈ path`, the filtered index list starts with
`path.indexOf initial_point`. -/
theorem filter_range_head (l : List Nat) (a : Nat) (hmem : a ∈ l) :
    ∃ rest, (List.range l.length).filter (fun i => l.getD i 0 == a) =
      l.indexOf a :: rest := by
  induction l with
  | nil => cases hmem
  | cons x xs ih =>
    by_cases hx : x = a
    · subst hx
      refine ⟨((List.range xs.length).map Nat.succ).filter
        (fun i => (x :: xs).getD i 0 == x), ?_⟩
      rw [List.length_cons, List.range_succ_eq_map, List.indexOf_cons_self]
      rw [List.filter_cons_of_pos (by simp)]
    · have hmem' : a ∈ xs := by
        cases hmem with
        | head => exact absurd rfl hx
        | tail _ h => exact h
      obtain ⟨rest, hr⟩ := ih hmem'
      refine ⟨rest.map Nat.succ, ?_⟩
      rw [List.length_cons, List.range_succ_eq_map]
      rw [List.filter_cons_of_neg (by simp [hx])]
      rw [List.filter_map]
      have hcomp : ((fun i => (x :: xs).getD i 0 == a) ∘ Nat.succ) =
          fun i => xs.getD i 0 == a := by
        funext i
        simp [Function.comp]
      rw [hcomp, hr, List.map_cons, List.indexOf_cons_ne xs hx]

theorem oracle_eq_loop (g : Grafo) (path : List Nat) (start : Nat) (tyme : ℚ)
    (hmem : start ∈ path) :
    oracle g path start tyme =
      oracleLoop g path (path.indexOf start) start [] tyme := by
  unfold oracle
  obtain ⟨rest, hr⟩ := filter_range_head path start hmem
  rw [hr]

theorem oracle_not_mem (g : Grafo) (path : List Nat) (start : Nat) (tyme : ℚ)
    (hmem : start ∉ path) :
    oracle g path start tyme = some (start, []) := by
  unfold oracle
  have hnil : ((List.range path.length).filter fun i => path.getD i 0 == start) = [] := by
    rw [List.filter_eq_nil_iff]
    intro i hi
    have hlt : i < path.length := List.mem_range.mp hi
    have : path.getD i 0 ∈ path := by
      rw [List.getD_eq_getElem path 0 hlt]
      exact List.getElem_mem hlt
    simp only [beq_iff_eq]
    intro hEq
    exact hmem (hEq ▸ this)
  rw [hnil]

/-! ## Clock lemmas and claim C3 -/

theorem Agora.step_eq_decode (a : Agora) (i : Nat) :
    a.step i = a.decode (a.encode + i) := by
  cases a with
  | mk y mo d h m s =>
    simp only [Agora.step, Agora.decode, Agora.encode, Agora.mk.injEq, true_and]
    omega

theorem Agora.encode_decode (a : Agora) (v : Nat) :
    (a.decode v).encode = v := by
  cases a with
  | mk y mo d h m s =>
    simp only [Agora.decode, Agora.encode]
    omega

theorem Agora.decode_decode (a : Agora) (v w : Nat) :
    (a.decode v).decode w = a.decode w := by
  cases a with
  | mk y mo d h m s => simp [Agora.decode]

theorem Agora.step_step (a : Agora) (i j : Nat) :
    (a.step i).step j = a.step (i + j) := by
  rw [Agora.step_eq_decode, Agora.step_eq_decode, Agora.step_eq_decode,
    Agora.encode_decode, Agora.decode_decode, Nat.add_assoc]

theorem Agora.step_zero (a : Agora) (hn : a.Normal) : a.step 0 = a := by
  obtain ⟨h1, h2, h3⟩ := hn
  cases a with
  | mk y mo d h m s =>
    simp only [Agora.step, Agora.mk.injEq, true_and]
    simp only [Agora.second, Agora.minute, Agora.hour] at h1 h2 h3
    omega

/-- C3: for all non-negative integers `x` and `y` and every timestamp,
stepping by `x` and then by `y` gives the same state as stepping by
`x + y` once (seconds carry through the second → minute → hour → day
boundaries modulo 60/60/24), `step` never changes the month or year
fields, and stepping by `0` is a no-op on every normalized timestamp. -/
theorem step_additive (a : Agora) (x y : Nat) :
    (a.step x).step y = a.step (x + y) ∧
    (a.step x).month = a.month ∧
    (a.step x).year = a.year ∧
    (a.Normal → a.step 0 = a) :=
  ⟨Agora.step_step a x y, rfl, rfl, fun hn => Agora.step_zero a hn⟩

/-- Witness for C3 at the spec §8 scenario `(2019-03-10, 23:59:59)` with
`x + y = 3661`. -/
theorem step_additive_witness :
    ((Agora.mk 2019 3 10 23 59 59).step 3600).step 61 =
      (Agora.mk 2019 3 10 23 59 59).step 3661 ∧
    (Agora.mk 2019 3 10 23 59 59).step 0 = Agora.mk 2019 3 10 23 59 59 :=
  ⟨(step_additive (Agora.mk 2019 3 10 23 59 59) 3600 61).1,
   (step_additive (Agora.mk 2019 3 10 23 59 59) 3600 61).2.2.2 (by decide)⟩

/-! ## Claim C1: the end-to-end oracle overshoot scenario -/

/-- C1: on the 3-node path A → B → C with travel times 300 s and 400 s and
a 600 s budget starting at A, the oracle reaches C having crossed both
edges in order: the budget is only re-checked between edges, so the second
edge is crossed even though 400 s exceeds the 300 s remaining. -/
theorem oracle_overshoot_scenario :
    oracle gC1 [0, 1, 2] 0 600 = some (2, [some (0, 1, 0), some (1, 2, 0)]) := by
  rw [oracle_eq_loop gC1 [0, 1, 2] 0 600 (by decide)]
  have hidx : List.indexOf 0 [0, 1, 2] = 0 := rfl
  rw [hidx]
  rw [oracleLoop_step gC1 [0, 1, 2] 0 0 [] 600 (0, 1, 0) (by norm_num) (by decide) rfl]
  norm_num [show gC1.travel_time (0, 1, 0) = 300 from rfl]
  rw [oracleLoop_step gC1 [0, 1, 2] 1 1 [some (0, 1, 0)] 300 (1, 2, 0)
    (by norm_num) (by decide) rfl]
  norm_num [show gC1.travel_time (1, 2, 0) = 400 from rfl]
  rw [oracleLoop_stop gC1 [0, 1, 2] 2 2 [some (0, 1, 0), some (1, 2, 0)] (-100)
    (by norm_num)]

/-! ## Claim C2: oracle monotonicity and full traversal -/

/-- C2: for every path of at least two nodes whose start node first occurs
before the last position, and every positive budget, the oracle (provided
the consecutive edges of the path exist, with positive travel times, as
they do for any planner-produced path) crosses at least one edge and stops
at a path position at least the start index; when the budget covers the
total travel time of the remaining path it returns the last node having
crossed exactly the consecutive-pair edges from the start index to the end,
in path order — `path.length - 1` of them from a start at index 0. -/
theorem oracle_monotonicity (g : Grafo) (path : List Nat) (start : Nat) (tyme : ℚ)
    (hlen : 2 ≤ path.length) (hmem : start ∈ path)
    (hidx : path.indexOf start < path.length - 1) (htyme : 0 < tyme)
    (hedges : ∀ i, path.indexOf start ≤ i → i + 1 < path.length →
      ∃ e, pairEdge g path i = some e ∧ 0 < g.travel_time e) :
    (∃ m, 1 ≤ m ∧ path.indexOf start + m + 1 ≤ path.length ∧
      oracle g path start tyme =
        some (path.getD (path.indexOf start + m) 0,
          pathEdges g path (path.indexOf start) m)) ∧
    (remainingTime g path (path.indexOf start)
        (path.length - 1 - path.indexOf start) ≤ tyme →
      oracle g path start tyme =
        some (path.getD (path.length - 1) 0,
          pathEdges g path (path.indexOf start)
            (path.length - 1 - path.indexOf start))) ∧
    (pathEdges g path (path.indexOf start)
        (path.length - 1 - path.indexOf start)).length =
      path.length - 1 - path.indexOf start := by
  have hjlt : path.indexOf start < path.length := List.indexOf_lt_length.mpr hmem
  have hstart : start = path.getD (path.indexOf start) 0 := by
    rw [List.getD_eq_getElem path 0 hjlt]
    exact (List.getElem_indexOf hjlt).symm
  refine ⟨?_, ?_, pathEdges_length g path _ _⟩
  · rw [oracle_eq_loop g path start tyme hmem]
    obtain ⟨m, hm1, hm2, heq⟩ := oracleLoop_progress g path
      (path.length - 1 - path.indexOf start) (path.indexOf start) start [] tyme
      (by omega) (by omega)
      (fun i hi hi' => ⟨(hedges i hi hi').choose, (hedges i hi hi').choose_spec.1⟩)
      htyme
    refine ⟨m, hm1, by omega, ?_⟩
    rw [heq, List.nil_append]
  · intro htotal
    rw [oracle_eq_loop g path start tyme hmem]
    rw [oracleLoop_full g path (path.length - 1 - path.indexOf start)
      (path.indexOf start) start [] tyme (by omega) hedges htotal hstart]
    rw [List.nil_append]

/-- Witness for C2: the 3-node fixture with budget 1000 s ≥ 700 s total. -/
theorem oracle_monotonicity_witness :
    oracle gC1 [0, 1, 2] 0 1000 = some (2, [some (0, 1, 0), some (1, 2, 0)]) := by
  have h := oracle_monotonicity gC1 [0, 1, 2] 0 1000 (by decide) (by decide)
    (by decide) (by norm_num) ?_
  · refine h.2.1 ?_
    simp +decide [remainingTime, List.range', pairEdge, Grafo.find_edge_by_nodes, gC1]
    norm_num
  · intro i h1 h2
    simp only [List.length_cons, List.length_nil] at h2
    have h3 : i < 2 := by omega
    match i with
    | 0 => exact ⟨(0, 1, 0), rfl, by norm_num [gC1]⟩
    | 1 => exact ⟨(1, 2, 0), rfl, by norm_num [gC1]⟩
    | n + 2 => exact absurd h3 (by omega)

/-! ## Claim C5: lookup misses -/

/-- Counterexample to C5 as stated: in a graph with no edge between the
consecutive path nodes 0 and 1, `find_edge_by_nodes` does return an
explicit absent result, but the oracle then fails (Python appends `None`
and raises looking up its travel time) instead of continuing with a null
effect. -/
theorem oracle_edge_miss_cex :
    gC5.find_edge_by_nodes 0 1 = none ∧ oracle gC5 [0, 1] 0 600 = none := by
  constructor
  · rfl
  · rw [oracle_eq_loop gC5 [0, 1] 0 600 (by decide)]
    show oracleLoop gC5 [0, 1] 0 0 [] 600 = _
    exact oracleLoop_miss gC5 [0, 1] 0 0 [] 600 (by norm_num) (by decide) rfl

/-- C5 amended: when the oracle's starting node is absent from the path it
returns the start node and an empty edge list non-fatally; but when
`find_edge_by_nodes` returns nothing for the first consecutive pair of the
walk (budget positive, start before the last position), the oracle fails
rather than degrading to a null effect. -/
theorem oracle_lookup_miss (g : Grafo) (path : List Nat) (start : Nat) (tyme : ℚ) :
    (start ∉ path → oracle g path start tyme = some (start, [])) ∧
    (start ∈ path → 0 < tyme → path.indexOf start + 1 < path.length →
      pairEdge g path (path.indexOf start) = none →
      oracle g path start tyme = none) := by
  constructor
  · exact fun h => oracle_not_mem g path start tyme h
  · intro hmem htyme hidx hmiss
    rw [oracle_eq_loop g path start tyme hmem]
    exact oracleLoop_miss g path (path.indexOf start) start [] tyme htyme hidx hmiss

/-- Witness for the amended C5: a start node absent from the path, and a
missing edge on the first consecutive pair. -/
theorem oracle_lookup_miss_witness :
    oracle gC5 [0, 1] 5 600 = some (5, []) ∧ oracle gC5 [0, 1] 0 600 = none :=
  ⟨(oracle_lookup_miss gC5 [0, 1] 5 600).1 (by decide),
   (oracle_lookup_miss gC5 [0, 1] 0 600).2 (by decide) (by norm_num) (by decide) rfl⟩

/-! ## Claim C4: flood-point retrieval -/

/-- Counterexample to C4 as stated: the code filters with
`START_T < start_time` (strict), so a row whose `START_T` equals the
current time is excluded, while the claimed half-open interval
`[START_T, END_T)` would include it. -/
theorem flooding_points_boundary_cex :
    Agora.get_flooding_points convId dfC4 agoraC4 = [] ∧
    floodPointsSpec convId dfC4 agoraC4 = [(5, 7)] := by
  constructor
  · rfl
  · rfl

/-- C4 amended: retrieval returns exactly the source rows (in order) whose
date matches and whose time-of-day interval contains the timestamp's time
of day with both comparisons strict — the open interval
`(START_T, END_T)`, so a row with `START_T` equal to the current time is
excluded — each converted by the supplied projection; when no row matches
it returns the empty sequence, and it never fails. -/
theorem flooding_points_open_interval (conv : ℚ → ℚ → ℚ × ℚ)
    (flood_df : List FloodRow) (a : Agora) :
    Agora.get_flooding_points conv flood_df a =
      (flood_df.filter fun r =>
        decide (r.date = a.dateStr ∧ pyStrLt r.start_t a.timeStr = true ∧
          pyStrLt a.timeStr r.end_t = true)).map
        (fun r => conv r.x r.y) ∧
    (∀ p : ℚ × ℚ, p ∈ Agora.get_flooding_points conv flood_df a ↔
      ∃ r ∈ flood_df, r.date = a.dateStr ∧ pyStrLt r.start_t a.timeStr = true ∧
        pyStrLt a.timeStr r.end_t = true ∧ p = conv r.x r.y) ∧
    ((∀ r ∈ flood_df, ¬(r.date = a.dateStr ∧ pyStrLt r.start_t a.timeStr = true ∧
        pyStrLt a.timeStr r.end_t = true)) →
      Agora.get_flooding_points conv flood_df a = []) := by
  have hfilter : Agora.get_flooding_points conv flood_df a =
      (flood_df.filter fun r =>
        decide (r.date = a.dateStr ∧ pyStrLt r.start_t a.timeStr = true ∧
          pyStrLt a.timeStr r.end_t = true)).map
        (fun r => conv r.x r.y) := by
    unfold Agora.get_flooding_points
    rw [List.filter_congr]
    intro r _
    apply Bool.eq_iff_iff.mpr
    simp [and_assoc]
  refine ⟨hfilter, ?_, ?_⟩
  · intro p
    rw [hfilter]
    simp only [List.mem_map, List.mem_filter, decide_eq_true_eq]
    constructor
    · rintro ⟨r, ⟨hr, h1, h2, h3⟩, hp⟩
      exact ⟨r, hr, h1, h2, h3, hp.symm⟩
    · rintro ⟨r, hr, h1, h2, h3, hp⟩
      exact ⟨r, ⟨hr, h1, h2, h3⟩, hp.symm⟩
  · intro hnone
    rw [hfilter]
    have hnil : (flood_df.filter fun r =>
        decide (r.date = a.dateStr ∧ pyStrLt r.start_t a.timeStr = true ∧
          pyStrLt a.timeStr r.end_t = true)) = [] := by
      rw [List.filter_eq_nil_iff]
      intro r hr
      simpa using hnone r hr
    rw [hnil, List.map_nil]

/-- Witness for the amended C4 on a concrete spreadsheet: the strictly
bracketing row is returned, the later row is not. -/
theorem flooding_points_open_interval_witness :
    Agora.get_flooding_points convId dfC4b agoraC4 =
      (dfC4b.filter fun r =>
        decide (r.date = agoraC4.dateStr ∧ pyStrLt r.start_t agoraC4.timeStr = true ∧
          pyStrLt agoraC4.timeStr r.end_t = true)).map (fun r => convId r.x r.y) ∧
    Agora.get_flooding_points convId dfC4b agoraC4 = [(5, 7)] :=
  ⟨(flooding_points_open_interval convId dfC4b agoraC4).1, rfl⟩

/-! ## Claim C6: flood classification -/

theorem foldl_or_any {α : Type} (l : List α) (f : α → Bool) :
    ∀ b : Bool, l.foldl (fun tf p => tf || f p) b = (b || l.any f) := by
  induction l with
  | nil => intro b; simp
  | cons x xs ih =>
    intro b
    rw [List.foldl_cons, ih (b || f x), List.any_cons, Bool.or_assoc]

theorem is_flooded_eq_any (dist : ℚ × ℚ → ℚ × ℚ → ℚ) (g : Grafo) (edge : EdgeT)
    (flooded_points : List (ℚ × ℚ)) :
    is_flooded dist g edge flooded_points =
      (edgeLatLons g edge).any fun p =>
        flooded_points.any fun q => decide (dist p q < 200) := by
  simp only [is_flooded]
  rw [foldl_or_any, Bool.false_or]

/-- C6: `is_flooded` is true exactly when some sampled point of the edge
(geometry vertices plus both endpoints) is at distance strictly less than
200 m from some supplied flood point, and is therefore invariant under any
permutation of the flood-point list. -/
theorem is_flooded_exists_perm (dist : ℚ × ℚ → ℚ × ℚ → ℚ) (g : Grafo)
    (edge : EdgeT) (fps fps2 : List (ℚ × ℚ)) :
    (is_flooded dist g edge fps = true ↔
      ∃ p ∈ edgeLatLons g edge, ∃ q ∈ fps, dist p q < 200) ∧
    (fps.Perm fps2 → is_flooded dist g edge fps = is_flooded dist g edge fps2) := by
  have hiff : ∀ l : List (ℚ × ℚ), is_flooded dist g edge l = true ↔
      ∃ p ∈ edgeLatLons g edge, ∃ q ∈ l, dist p q < 200 := by
    intro l
    rw [is_flooded_eq_any]
    simp [List.any_eq_true]
  refine ⟨hiff fps, fun hperm => ?_⟩
  apply Bool.eq_iff_iff.mpr
  rw [hiff fps, hiff fps2]
  constructor
  · rintro ⟨p, hp, q, hq, hd⟩
    exact ⟨p, hp, q, hperm.mem_iff.mp hq, hd⟩
  · rintro ⟨p, hp, q, hq, hd⟩
    exact ⟨p, hp, q, hperm.mem_iff.mpr hq, hd⟩

/-- Witness for C6: swapping two flood points leaves the classification
unchanged on the concrete fixture. -/
theorem is_flooded_exists_perm_witness :
    is_flooded distW gC1 (0, 1, 0) [(0, 0), (1, 1)] =
      is_flooded distW gC1 (0, 1, 0) [(1, 1), (0, 0)] :=
  (is_flooded_exists_perm distW gC1 (0, 1, 0) [(0, 0), (1, 1)] [(1, 1), (0, 0)]).2
    (List.Perm.swap (1, 1) (0, 0) [])

/-! ## Claim C7: per-edge rainfall sampling -/

theorem pytrunc_eq_floor (q : ℚ) (h : 0 ≤ q) : pytrunc q = ⌊q⌋ := by
  unfold pytrunc
  rw [Rat.floor_def]
  exact Int.tdiv_eq_ediv (Rat.num_nonneg.mpr h) (Int.natCast_nonneg q.den)

theorem pytrunc_neg (q : ℚ) : pytrunc (-q) = -pytrunc q := by
  unfold pytrunc
  rw [Rat.neg_num, Rat.neg_den, Int.neg_tdiv]

theorem pyIndex_nonneg {α : Type} (l : List α) (i : ℤ) (h : 0 ≤ i) :
    pyIndex l i = l.get? i.toNat := by
  unfold pyIndex
  rw [if_pos h]

theorem pyTraverse_congr {α β : Type} (f g : α → Option β) (l : List α)
    (h : ∀ a ∈ l, f a = g a) : pyTraverse f l = pyTraverse g l := by
  induction l with
  | nil => rfl
  | cons a l ih =>
    show (match f a with
      | none => none
      | some b => (pyTraverse f l).map fun bs => b :: bs) = _
    rw [h a (List.mem_cons_self a l), ih fun x hx => h x (List.mem_cons_of_mem a hx)]
    rfl

theorem pyTraverse_map {α β γ : Type} (f : α → β) (g : β → Option γ) (l : List α) :
    pyTraverse g (l.map f) = pyTraverse (fun a => g (f a)) l := by
  induction l with
  | nil => rfl
  | cons a l ih =>
    show (match g (f a) with
      | none => none
      | some b => (pyTraverse g (l.map f)).map fun bs => b :: bs) = _
    rw [ih]
    rfl

/-- Counterexample to C7 as stated, in two parts.  With the grid `[[5, 99]]`
present: (a) an edge whose geometry vertex samples value 5 but whose
endpoints sample value 99 — the code returns 99 because it always samples
the endpoints in addition to the geometry, while the claim's sample set
("geometry vertices or, if none, the endpoints") yields 5; (b) an edge
sampled half a cell below the grid origin — the code truncates toward zero
and returns the row-0 value 5, while the claim's `floor` cell `(-1, 0)`
does not exist, so the claimed maximum is undefined (`none`). -/
theorem rain_at_edge_cex :
    (Radar.rain_at_edge rC7 gC7a (0, 1, 0) agoraC4 = some 99 ∧
     rainAtEdgeClaim rC7 gC7a (0, 1, 0) agoraC4 = some 5) ∧
    (Radar.rain_at_edge rC7 gC7b (0, 1, 0) agoraC4 = some 5 ∧
     rainAtEdgeClaim rC7 gC7b (0, 1, 0) agoraC4 = none) := by
  have hp0 : pytrunc ((2 : ℚ)⁻¹) = 0 := by
    rw [pytrunc_eq_floor _ (by norm_num)]
    norm_num
  have hp1 : pytrunc ((3 : ℚ) / 2) = 1 := by
    rw [pytrunc_eq_floor _ (by norm_num)]
    norm_num
  have hpn : pytrunc (-(2 : ℚ)⁻¹) = 0 := by
    rw [pytrunc_neg, hp0, neg_zero]
  have hf0 : ⌊((2 : ℚ)⁻¹)⌋ = 0 := by norm_num
  have hfn : ⌊(-(2 : ℚ)⁻¹)⌋ = -1 := by norm_num
  refine ⟨⟨?_, ?_⟩, ?_, ?_⟩
  · simp +decide [Radar.rain_at_edge, rC7, gC7a, edgeLonLats, pyTraverse, pyIndex,
      pyListMax, hp0, hp1]
  · simp +decide [rainAtEdgeClaim, rC7, gC7a, claimSamples, pyTraverse, gridAt,
      pyListMax, hf0]
  · simp +decide [Radar.rain_at_edge, rC7, gC7b, edgeLonLats, pyTraverse, pyIndex,
      pyListMax, hp0, hpn]
  · simp +decide [rainAtEdgeClaim, rC7, gC7b, claimSamples, pyTraverse, gridAt,
      pyListMax, hf0, hfn]

/-- C7 amended: the operation fails (the error propagates) when the
rainfall grid is absent for the timestamp; and the sampled points are the
edge's geometry vertices plus both endpoints, each mapped to the cell
obtained by truncation toward zero — which agrees with the claimed `floor`
cell mapping whenever every sampled offset is non-negative, the result
then being the maximum of the grid values at those floor cells (failing if
a cell is outside the grid). -/
theorem rain_at_edge_amended (radar : Radar) (g : Grafo) (edge : EdgeT) (agora : Agora) :
    (radar.rain_by_time agora = none → Radar.rain_at_edge radar g edge agora = none) ∧
    ((∀ p ∈ edgeLonLats g edge, 0 ≤ (p.2 - radar.lat0) / radar.dlat ∧
        0 ≤ (p.1 - radar.lon0) / radar.dlon) →
      Radar.rain_at_edge radar g edge agora = rainAtEdgeFloor radar g edge agora) := by
  constructor
  · intro h
    unfold Radar.rain_at_edge
    rw [h]
  · intro hnn
    unfold Radar.rain_at_edge rainAtEdgeFloor
    cases hmat : radar.rain_by_time agora with
    | none => rfl
    | some matrix =>
      dsimp only
      rw [pyTraverse_map]
      congr 1
      apply pyTraverse_congr
      intro p hp
      obtain ⟨h1, h2⟩ := hnn p hp
      have hr : (0 : ℤ) ≤ ⌊(p.2 - radar.lat0) / radar.dlat⌋ := Int.floor_nonneg.mpr h1
      have hc : (0 : ℤ) ≤ ⌊(p.1 - radar.lon0) / radar.dlon⌋ := Int.floor_nonneg.mpr h2
      rw [pytrunc_eq_floor _ h1, pytrunc_eq_floor _ h2]
      rw [pyIndex_nonneg _ _ hr]
      have hinner : (fun row : List Int => pyIndex row ⌊(p.1 - radar.lon0) / radar.dlon⌋) =
          fun row : List Int => row.get? ⌊(p.1 - radar.lon0) / radar.dlon⌋.toNat :=
        funext fun row => pyIndex_nonneg row _ hc
      rw [hinner]
      unfold gridAt
      rw [if_pos (by simp [hr, hc])]

/-- Witness for the amended C7: the absence clause on the grid-less radar,
and the floor-cell agreement on the in-grid fixture. -/
theorem rain_at_edge_amended_witness :
    Radar.rain_at_edge radNone gC7a (0, 1, 0) agoraC4 = none ∧
    Radar.rain_at_edge rC7 gC7a (0, 1, 0) agoraC4 =
      rainAtEdgeFloor rC7 gC7a (0, 1, 0) agoraC4 := by
  constructor
  · exact (rain_at_edge_amended radNone gC7a (0, 1, 0) agoraC4).1 rfl
  · apply (rain_at_edge_amended rC7 gC7a (0, 1, 0) agoraC4).2
    intro p hp
    have hmem : p ∈ [((1 : ℚ) / 2, (1 : ℚ) / 2), (3 / 2, 1 / 2), (3 / 2, 1 / 2)] := by
      simpa [edgeLonLats, gC7a] using hp
    simp only [List.mem_cons, List.not_mem_nil, or_false] at hmem
    rcases hmem with h | h | h <;> subst h <;> constructor <;> simp [rC7] <;> norm_num

/-! ## Claim C8: grid-absent iterations -/

theorem lookup_map_zero (l : List EdgeT) (e : EdgeT) (he : e ∈ l) :
    (l.map fun x => (x, (0 : Int))).lookup e = some 0 := by
  induction l with
  | nil => cases he
  | cons a l ih =>
    by_cases hea : e = a
    · subst hea
      simp [List.lookup]
    · have : e ∈ l := by
        cases he with
        | head => exact absurd rfl hea
        | tail _ h => exact h
      simp only [List.map_cons, List.lookup]
      have hbeq : (e == a) = false := by simpa using hea
      rw [hbeq]
      exact ih this

theorem expIterPlan_graph (astarW : Grafo → Nat → Nat → Option (List Nat))
    (g1 : Grafo) (destination start : Nat) (t1 : Agora)
    (rains edge_rains : List (EdgeT × Int))
    (r : Nat × Agora × Grafo × List (EdgeT × Int))
    (h : expIterPlan astarW g1 destination start t1 rains edge_rains = some r) :
    r.2.2.1 = g1 := by
  unfold expIterPlan at h
  cases hsp : astarW g1 start destination with
  | none => rw [hsp] at h; cases h
  | some sp =>
    rw [hsp] at h
    dsimp only at h
    cases sp with
    | nil => cases h
    | cons p0 rest =>
      dsimp only at h
      cases ho : oracle g1 (p0 :: rest) p0 600 with
      | none => rw [ho] at h; cases h
      | some pr =>
        rw [ho] at h
        obtain ⟨s1, subpath⟩ := pr
        dsimp only at h
        cases hrec : recordSubpath rains subpath edge_rains with
        | none => rw [hrec] at h; cases h
        | some er2 =>
          rw [hrec] at h
          dsimp only [Option.map] at h
          cases h
          rfl

/-- C8: in a planning iteration whose rainfall grid is absent, the
per-edge rainfall dictionary maps every edge of the current graph to 0,
and the iteration returns the graph object unchanged — in particular no
weight attribute is written. -/
theorem grid_absent_iteration (conv : ℚ → ℚ → ℚ × ℚ) (df : List FloodRow)
    (w : WeightFn) (astarW : Grafo → Nat → Nat → Option (List Nat)) (radar : Radar)
    (destination start : Nat) (time : Agora) (g : Grafo)
    (edge_rains : List (EdgeT × Int))
    (habs : gridPresent (radar.rain_by_time time) = false) :
    iterRains radar g time = some (g.edges.map fun e => (e, 0)) ∧
    (g.edges.all fun e =>
      ((iterRains radar g time).getD []).lookup e == some 0) = true ∧
    Option.map (fun r => r.2.2.1)
        (expIter conv df w astarW radar destination start time g edge_rains) =
      Option.map (fun _ => g)
        (expIter conv df w astarW radar destination start time g edge_rains) := by
  have hrains : iterRains radar g time = some (g.edges.map fun e => (e, 0)) := by
    unfold iterRains
    rw [habs]
    rfl
  refine ⟨hrains, ?_, ?_⟩
  · rw [List.all_eq_true]
    intro e he
    rw [hrains]
    have : ((g.edges.map fun e => (e, (0 : Int))).lookup e) = some 0 :=
      lookup_map_zero g.edges e he
    simp [this]
  · unfold expIter
    rw [hrains, habs]
    simp only [Bool.false_eq_true, if_false]
    cases hp : expIterPlan astarW g destination start (time.step 600)
        (g.edges.map fun e => (e, 0)) edge_rains with
    | none => rfl
    | some r =>
      have hg := expIterPlan_graph astarW g destination start (time.step 600)
        (g.edges.map fun e => (e, 0)) edge_rains r hp
      simp only [Option.map_some']
      rw [hg]

/-- Witness for C8 at a concrete grid-less iteration. -/
theorem grid_absent_iteration_witness :
    iterRains radNone gC1 agoraC4 = some (gC1.edges.map fun e => (e, 0)) ∧
    (gC1.edges.all fun e =>
      ((iterRains radNone gC1 agoraC4).getD []).lookup e == some 0) = true ∧
    Option.map (fun r => r.2.2.1)
        (expIter convId dfC4 wOne astarW012 radNone 2 0 agoraC4 gC1 []) =
      Option.map (fun _ => gC1)
        (expIter convId dfC4 wOne astarW012 radNone 2 0 agoraC4 gC1 []) :=
  grid_absent_iteration convId dfC4 wOne astarW012 radNone 2 0 agoraC4 gC1 [] rfl

/-! ## Claim C9: crop containment -/

theorem foldl_min_le (qs : List ℚ) :
    ∀ (q x : ℚ), x ∈ q :: qs → qs.foldl min q ≤ x := by
  induction qs with
  | nil =>
    intro q x hx
    have : x = q := by simpa using hx
    subst this
    exact le_refl x
  | cons a l ih =>
    intro q x hx
    rw [List.foldl_cons]
    rcases List.mem_cons.mp hx with h | h
    · subst h
      exact le_trans (ih (min x a) (min x a) (List.mem_cons_self _ _)) (min_le_left x a)
    · rcases List.mem_cons.mp h with h2 | h2
      · subst h2
        exact le_trans (ih (min q x) (min q x) (List.mem_cons_self _ _)) (min_le_right q x)
      · exact ih (min q a) x (List.mem_cons_of_mem _ h2)

theorem le_foldl_max (qs : List ℚ) :
    ∀ (q x : ℚ), x ∈ q :: qs → x ≤ qs.foldl max q := by
  induction qs with
  | nil =>
    intro q x hx
    have : x = q := by simpa using hx
    subst this
    exact le_refl x
  | cons a l ih =>
    intro q x hx
    rw [List.foldl_cons]
    rcases List.mem_cons.mp hx with h | h
    · subst h
      exact le_trans (le_max_left x a) (ih (max x a) (max x a) (List.mem_cons_self _ _))
    · rcases List.mem_cons.mp h with h2 | h2
      · subst h2
        exact le_trans (le_max_right q x) (ih (max q x) (max q x) (List.mem_cons_self _ _))
      · exact ih (max q a) x (List.mem_cons_of_mem _ h2)

theorem pyMin_le (l : List ℚ) (x : ℚ) (hx : x ∈ l) : pyMin l ≤ x := by
  cases l with
  | nil => cases hx
  | cons q qs => exact foldl_min_le qs q x hx

theorem le_pyMax (l : List ℚ) (x : ℚ) (hx : x ∈ l) : x ≤ pyMax l := by
  cases l with
  | nil => cases hx
  | cons q qs => exact le_foldl_max qs q x hx

theorem truncate_node_mem (g : Grafo) (north south east west : ℚ) (n : Nat)
    (hn : n ∈ g.nodes) (h1 : south ≤ g.y n) (h2 : g.y n ≤ north)
    (h3 : west ≤ g.x n) (h4 : g.x n ≤ east) :
    n ∈ (truncate_graph_bbox g north south east west).nodes := by
  unfold truncate_graph_bbox
  exact List.mem_filter.mpr ⟨hn, by simp [h1, h2, h3, h4]⟩

theorem truncate_edge_mem (g : Grafo) (north south east west : ℚ) (e : EdgeT)
    (he : e ∈ g.edges)
    (h1 : south ≤ g.y e.1) (h2 : g.y e.1 ≤ north)
    (h3 : west ≤ g.x e.1) (h4 : g.x e.1 ≤ east)
    (h5 : south ≤ g.y e.2.1) (h6 : g.y e.2.1 ≤ north)
    (h7 : west ≤ g.x e.2.1) (h8 : g.x e.2.1 ≤ east) :
    e ∈ (truncate_graph_bbox g north south east west).edges := by
  unfold truncate_graph_bbox
  exact List.mem_filter.mpr ⟨he, by simp [h1, h2, h3, h4, h5, h6, h7, h8]⟩

/-- C9: the second of two identical crops yields a graph whose nodes and
edges are subsets of the first crop's; and a crop never removes a node of
the path its bounding box was derived from, nor an edge both of whose
endpoints are path nodes (the graph's nodes lying inside its original
outer box, which clamping relies on). -/
theorem crop_containment (astar : Grafo → Nat → Nat → Option (List Nat))
    (g : Grafo) (a b : Nat) :
    (∀ g1 g2, Grafo.crop astar g a b = some g1 → Grafo.crop astar g1 a b = some g2 →
      (∀ n ∈ g2.nodes, n ∈ g1.nodes) ∧ ∀ e ∈ g2.edges, e ∈ g1.edges) ∧
    (∀ path, astar g a b = some path → path ≠ [] →
      (∀ n ∈ path, g.lat0 ≤ g.y n ∧ g.y n ≤ g.latoo ∧
        g.lon0 ≤ g.x n ∧ g.x n ≤ g.lonoo) →
      ∃ g3, Grafo.crop astar g a b = some g3 ∧
        (∀ n ∈ path, n ∈ g.nodes → n ∈ g3.nodes) ∧
        (∀ e ∈ g.edges, e.1 ∈ path → e.2.1 ∈ path → e ∈ g3.edges)) := by
  constructor
  · intro g1 g2 _ h2
    unfold Grafo.crop at h2
    cases hast : astar g1 a b with
    | none => rw [hast] at h2; cases h2
    | some path2 =>
      rw [hast] at h2
      dsimp only at h2
      by_cases hemp : path2.isEmpty
      · rw [if_pos hemp] at h2; cases h2
      · rw [if_neg hemp] at h2
        have hg2 := (Option.some.injEq _ _).mp h2
        subst hg2
        constructor
        · intro n hn
          exact (List.mem_filter.mp hn).1
        · intro e he
          exact (List.mem_filter.mp he).1
  · intro path hast hne hbox
    refine ⟨truncate_graph_bbox g
      (min g.latoo (pyMax (path.map g.y) + (pyMax (path.map g.y) - pyMin (path.map g.y))))
      (max g.lat0 (pyMin (path.map g.y) - (pyMax (path.map g.y) - pyMin (path.map g.y))))
      (min g.lonoo (pyMax (path.map g.x) + (pyMax (path.map g.x) - pyMin (path.map g.x))))
      (max g.lon0 (pyMin (path.map g.x) - (pyMax (path.map g.x) - pyMin (path.map g.x)))),
      ?_, ?_, ?_⟩
    · unfold Grafo.crop
      rw [hast]
      dsimp only
      rw [if_neg (by simpa using hne)]
    all_goals
      have hbounds : ∀ n ∈ path,
          max g.lat0 (pyMin (path.map g.y) - (pyMax (path.map g.y) - pyMin (path.map g.y))) ≤ g.y n ∧
          g.y n ≤ min g.latoo (pyMax (path.map g.y) + (pyMax (path.map g.y) - pyMin (path.map g.y))) ∧
          max g.lon0 (pyMin (path.map g.x) - (pyMax (path.map g.x) - pyMin (path.map g.x))) ≤ g.x n ∧
          g.x n ≤ min g.lonoo (pyMax (path.map g.x) + (pyMax (path.map g.x) - pyMin (path.map g.x))) := by
        intro n hn
        obtain ⟨hb1, hb2, hb3, hb4⟩ := hbox n hn
        have hy : g.y n ∈ path.map g.y := List.mem_map_of_mem g.y hn
        have hx : g.x n ∈ path.map g.x := List.mem_map_of_mem g.x hn
        have hy1 := pyMin_le _ _ hy
        have hy2 := le_pyMax _ _ hy
        have hx1 := pyMin_le _ _ hx
        have hx2 := le_pyMax _ _ hx
        refine ⟨max_le hb1 (by linarith), le_min hb2 (by linarith),
          max_le hb3 (by linarith), le_min hb4 (by linarith)⟩
    · intro n hn hmem
      obtain ⟨c1, c2, c3, c4⟩ := hbounds n hn
      exact truncate_node_mem g _ _ _ _ n hmem c1 c2 c3 c4
    · intro e he h1 h2
      obtain ⟨c1, c2, c3, c4⟩ := hbounds e.1 h1
      obtain ⟨c5, c6, c7, c8⟩ := hbounds e.2.1 h2
      exact truncate_edge_mem g _ _ _ _ e he c1 c2 c3 c4 c5 c6 c7 c8

/-- Witness for C9 on a graph that its own crop leaves unchanged. -/
theorem crop_containment_witness :
    ((∀ n ∈ gC9.nodes, n ∈ gC9.nodes) ∧ ∀ e ∈ gC9.edges, e ∈ gC9.edges) ∧
    ∃ g3, Grafo.crop astar9 gC9 0 1 = some g3 ∧
      (∀ n ∈ [0, 1], n ∈ gC9.nodes → n ∈ g3.nodes) ∧
      (∀ e ∈ gC9.edges, e.1 ∈ [0, 1] → e.2.1 ∈ [0, 1] → e ∈ g3.edges) := by
  have h1 : Grafo.crop astar9 gC9 0 1 = some gC9 := by
    simp +decide [Grafo.crop, astar9, gC9, pyMin, pyMax, truncate_graph_bbox]
  exact ⟨(crop_containment astar9 gC9 0 1).1 gC9 gC9 h1 h1,
    (crop_containment astar9 gC9 0 1).2 [0, 1] rfl (by decide)
      (by intro n hn; simp [gC9])⟩

/-! ## Claim C10: frame effects of the experiment run -/

theorem sameSkeleton_refl (g : Grafo) : sameSkeleton g g :=
  ⟨rfl, rfl, rfl, rfl, rfl, rfl, rfl, rfl, rfl, rfl⟩

theorem sameSkeleton_trans {g1 g2 g3 : Grafo}
    (h1 : sameSkeleton g1 g2) (h2 : sameSkeleton g2 g3) : sameSkeleton g1 g3 := by
  obtain ⟨a1, a2, a3, a4, a5, a6, a7, a8, a9, a10⟩ := h1
  obtain ⟨b1, b2, b3, b4, b5, b6, b7, b8, b9, b10⟩ := h2
  exact ⟨a1.trans b1, a2.trans b2, a3.trans b3, a4.trans b4, a5.trans b5,
    a6.trans b6, a7.trans b7, a8.trans b8, a9.trans b9, a10.trans b10⟩

theorem nx_set_edge_attributes_skeleton (g : Grafo) (wf : EdgeT → ℚ) :
    sameSkeleton (nx_set_edge_attributes g wf) g :=
  ⟨rfl, rfl, rfl, rfl, rfl, rfl, rfl, rfl, rfl, rfl⟩

theorem expIter_skeleton (conv : ℚ → ℚ → ℚ × ℚ) (df : List FloodRow)
    (w : WeightFn) (astarW : Grafo → Nat → Nat → Option (List Nat)) (radar : Radar)
    (destination start : Nat) (time : Agora) (g : Grafo)
    (edge_rains : List (EdgeT × Int)) (r : Nat × Agora × Grafo × List (EdgeT × Int))
    (h : expIter conv df w astarW radar destination start time g edge_rains = some r) :
    sameSkeleton r.2.2.1 g := by
  unfold expIter at h
  cases hir : iterRains radar g time with
  | none => rw [hir] at h; cases h
  | some rains =>
    rw [hir] at h
    dsimp only at h
    have hg := expIterPlan_graph astarW _ destination start (time.step 600)
      rains edge_rains r h
    rw [hg]
    by_cases hgp : gridPresent (radar.rain_by_time time) = true
    · rw [if_pos hgp]
      exact nx_set_edge_attributes_skeleton g _
    · rw [if_neg hgp]
      exact sameSkeleton_refl g

theorem expIter_weights_overwritten (conv : ℚ → ℚ → ℚ × ℚ) (df : List FloodRow)
    (w : WeightFn) (astarW : Grafo → Nat → Nat → Option (List Nat)) (radar : Radar)
    (destination start : Nat) (time : Agora) (g : Grafo)
    (edge_rains : List (EdgeT × Int)) (r : Nat × Agora × Grafo × List (EdgeT × Int))
    (hgp : gridPresent (radar.rain_by_time time) = true)
    (h : expIter conv df w astarW radar destination start time g edge_rains = some r) :
    ∃ rains, iterRains radar g time = some rains ∧
      r.2.2.1 = nx_set_edge_attributes g
        fun e => w g e (Agora.get_flooding_points conv df time) rains := by
  unfold expIter at h
  cases hir : iterRains radar g time with
  | none => rw [hir] at h; cases h
  | some rains =>
    rw [hir] at h
    dsimp only at h
    rw [if_pos hgp] at h
    exact ⟨rains, rfl, expIterPlan_graph astarW _ destination start (time.step 600)
      rains edge_rains r h⟩

theorem expLoop_skeleton (conv : ℚ → ℚ → ℚ × ℚ) (df : List FloodRow)
    (w : WeightFn) (astarW : Grafo → Nat → Nat → Option (List Nat)) (radar : Radar)
    (destination : Nat) :
    ∀ fuel start time g edge_rains r,
      expLoop conv df w astarW radar destination fuel start time g edge_rains = some r →
      sameSkeleton r.2.2.1 g := by
  intro fuel
  induction fuel with
  | zero =>
    intro start time g edge_rains r h
    unfold expLoop at h
    by_cases hs : (start == destination) = true
    · rw [if_pos hs] at h
      cases h
      exact sameSkeleton_refl g
    · rw [if_neg hs] at h
      cases h
  | succ f ih =>
    intro start time g edge_rains r h
    unfold expLoop at h
    by_cases hs : (start == destination) = true
    · rw [if_pos hs] at h
      cases h
      exact sameSkeleton_refl g
    · rw [if_neg hs] at h
      dsimp only at h
      cases hit : expIter conv df w astarW radar destination start time g edge_rains with
      | none => rw [hit] at h; cases h
      | some r2 =>
        rw [hit] at h
        obtain ⟨s2, t2, g2, er2⟩ := r2
        dsimp only at h
        have h1 := ih s2 t2 g2 er2 r h
        have h2 := expIter_skeleton conv df w astarW radar destination start time g
          edge_rains (s2, t2, g2, er2) hit
        exact sameSkeleton_trans h1 h2

/-- C10: a terminating run of `Experiment.experiment` leaves the
experiment's own origin, destination, clock and radar fields unchanged
(the loop advances deep copies), while the shared `Grafo` is mutated in
place: the returned experiment state carries the graph produced by the
initial destructive crop, identical to it in everything except the
core-managed `weight` attribute, which grid-present iterations overwrite
through the cost model. -/
theorem experiment_frame (conv : ℚ → ℚ → ℚ × ℚ) (df : List FloodRow)
    (astarTT astarW : Grafo → Nat → Nat → Option (List Nat)) (w : WeightFn)
    (e : PyExperiment) (fuel : Nat) (res : PyExperiment × List (EdgeT × Int))
    (h : PyExperiment.experiment conv df astarTT astarW w e fuel = some res) :
    (res.1.origin = e.origin ∧ res.1.destination = e.destination ∧
      res.1.agora = e.agora ∧ res.1.radar = e.radar ∧
      ∃ g1, Grafo.crop astarTT e.grafo e.origin e.destination = some g1 ∧
        sameSkeleton res.1.grafo g1) ∧
    (∀ radar destination start time g edge_rains r,
      gridPresent (radar.rain_by_time time) = true →
      expIter conv df w astarW radar destination start time g edge_rains = some r →
      ∃ rains, iterRains radar g time = some rains ∧
        r.2.2.1 = nx_set_edge_attributes g
          fun ed => w g ed (Agora.get_flooding_points conv df time) rains) := by
  constructor
  · unfold PyExperiment.experiment at h
    cases hcrop : Grafo.crop astarTT e.grafo e.origin e.destination with
    | none => rw [hcrop] at h; cases h
    | some g1 =>
      rw [hcrop] at h
      dsimp only at h
      cases hloop : expLoop conv df w astarW e.radar e.destination fuel e.origin
          e.agora g1 [] with
      | none => rw [hloop] at h; cases h
      | some r4 =>
        rw [hloop] at h
        obtain ⟨s, t, gF, er⟩ := r4
        dsimp only at h
        cases h
        refine ⟨rfl, rfl, rfl, rfl, g1, rfl, ?_⟩
        exact expLoop_skeleton conv df w astarW e.radar e.destination fuel e.origin
          e.agora g1 [] (s, t, gF, er) hloop
  · intro radar destination start time g edge_rains r hgp hit
    exact expIter_weights_overwritten conv df w astarW radar destination start time g
      edge_rains r hgp hit

/-- Witness for C10: the immediately-terminating run (origin equals
destination) returns the experiment state with its graph replaced by the
crop result and every other field untouched. -/
theorem experiment_frame_witness :
    PyExperiment.experiment convId dfC4 astar9 astar9 wOne expC10 0 =
      some (expC10, []) ∧
    expC10.origin = expC10.origin ∧ expC10.destination = expC10.destination ∧
    expC10.agora = expC10.agora ∧ expC10.radar = expC10.radar ∧
    ∃ g1, Grafo.crop astar9 expC10.grafo expC10.origin expC10.destination = some g1 ∧
      sameSkeleton expC10.grafo g1 := by
  have hcrop : Grafo.crop astar9 gC9 0 0 = some gC9 := by
    simp +decide [Grafo.crop, astar9, gC9, pyMin, pyMax, truncate_graph_bbox]
  have hexp : PyExperiment.experiment convId dfC4 astar9 astar9 wOne expC10 0 =
      some (expC10, []) := by
    unfold PyExperiment.experiment
    rw [show Grafo.crop astar9 expC10.grafo expC10.origin expC10.destination =
      some gC9 from hcrop]
    rfl
  have h := experiment_frame convId dfC4 astar9 astar9 wOne expC10 0 (expC10, []) hexp
  exact ⟨hexp, h.1.1, h.1.2.1, h.1.2.2.1, h.1.2.2.2.1, h.1.2.2.2.2⟩

end Rainfall
